import Mathlib

/-!
# A verification model of the proxyrotator core

This file gives a shallow embedding, in Lean, of the rotation core of the
`proxyrotator` repository (packages `internal/rotator` and `internal/pool`),
and proves properties of it.

Modelling conventions:

* A Go `*pool.Proxy` pointer is modelled by the proxy's `id` (ids are unique,
  assigned sequentially by `LoadFile`); the mutable record behind the pointer
  lives in a heap `List Proxy` carried in the rotator state.  Go pointer
  equality `px == cur` becomes equality of ids.
* Wall-clock time (`time.Time`, `time.Duration`) is modelled by `Nat`
  (milliseconds); the zero `time.Time` is `0`, and `time.Now()` is passed to
  each operation as an explicit `now` parameter.  `time.Since(t) < w` becomes
  `now - t < w` (truncated subtraction; call times are monotone in any real
  trace).
* Go `int64` counters are modelled by `Int`; int64 wrap-around is not
  modelled (the counters grow by 1 from 0 and never approach 2^63).
* The buffered channel `rotateCh` (capacity 16) is a `List String`.  A plain
  Go channel send completes immediately when the buffer has room and
  otherwise blocks the sender; a blocked send is modelled by `none`.
* Go maps `pins` and `recentHTTPErrors` are association lists with
  last-write-wins update.
-/

namespace ProxyRotator

/-- One upstream proxy record (`pool.Proxy`).  Only the fields that the
rotation core reads or writes are modelled: the identity `id`, the liveness
flag `alive`, the probed `latency` (0 = never probed) and the three
per-activation counters. -/
structure Proxy where
  id : Nat
  alive : Bool
  latency : Nat
  reqCount : Int
  connErrors : Int
  httpErrors : Int
deriving DecidableEq, Repr

/-- `(*pool.Proxy).IsAlive`: read the liveness flag. -/
def Proxy.IsAlive (p : Proxy) : Bool := p.alive

/-- `(*pool.Proxy).ResetErrorCounters`: zero the per-rotation counters
`ConnErrors`, `HTTPErrors` and `ReqCount`. -/
def Proxy.ResetErrorCounters (p : Proxy) : Proxy :=
  { p with connErrors := 0, httpErrors := 0, reqCount := 0 }

/-- `rotator.Config`: the rotation thresholds.  Durations are in
milliseconds. -/
structure Config where
  rotateInterval : Nat := 0
  rotateRequests : Int := 0
  rotateConnErrors : Int := 0
  rotateHTTPErrors : Int := 0
  httpErrorDedupWindow : Nat := 0
deriving DecidableEq, Repr

/-- `rotator.Rotator`: the rotator state, together with the heap of proxy
records it shares with the pool.  `current` holds the id of the active proxy
(`nil` pointer = `none`), `rotateCh` is the pending-trigger queue. -/
structure Rotator where
  cfg : Config
  heap : List Proxy
  current : Option Nat
  poolIndex : Nat
  generation : Int
  rotatedAt : Nat
  pins : List (String × Nat)
  recentHTTPErrors : List (String × Nat)
  rotateCh : List String
deriving DecidableEq, Repr

/-- Go map read `m[k]`: value of the last-written binding of `k`, if any. -/
def mapGet (m : List (String × Nat)) (k : String) : Option Nat :=
  match m with
  | [] => none
  | (k', v) :: t => if k' = k then some v else mapGet t k

/-- Go map write `m[k] = v`: replace the binding of `k`, or append it. -/
def mapSet (m : List (String × Nat)) (k : String) (v : Nat) : List (String × Nat) :=
  match m with
  | [] => [(k, v)]
  | (k', v') :: t => if k' = k then (k, v) :: t else (k', v') :: mapSet t k v

/-- Index of the last occurrence of character `c` in `cs`
(`strings.LastIndex` restricted to a single ASCII character). -/
def lastIndexOfChar (c : Char) : List Char → Option Nat
  | [] => none
  | x :: xs =>
    match lastIndexOfChar c xs with
    | some i => some (i + 1)
    | none => if x = c then some 0 else none

/-- `strings.ToLower`, character by character.  (Destination strings are
hostnames, for which Go's Unicode lowering agrees with `Char.toLower`.) -/
def toLowerStr (s : String) : String :=
  String.mk (s.data.map Char.toLower)

/-- `rotator.extractDomain`: strip the port from a `host:port` destination
(cut at the **last** `:`, if any) and lowercase the rest. -/
def extractDomain (destination : String) : String :=
  match lastIndexOfChar ':' destination.data with
  | none => toLowerStr destination
  | some idx => toLowerStr (String.mk (destination.data.take idx))

/-- Dereference a proxy pointer: the heap record with the given id. -/
def findProxy (heap : List Proxy) (i : Nat) : Option Proxy :=
  heap.find? (fun p => p.id == i)

/-- `px.IsAlive()` through the heap. -/
def isAliveId (heap : List Proxy) (i : Nat) : Bool :=
  ((findProxy heap i).map Proxy.IsAlive).getD false

/-- Current value of the `HTTPErrors` counter of proxy `i`. -/
def httpErrorsOf (heap : List Proxy) (i : Nat) : Int :=
  ((findProxy heap i).map Proxy.httpErrors).getD 0

/-- Current value of the `ReqCount` counter of proxy `i`. -/
def reqCountOf (heap : List Proxy) (i : Nat) : Int :=
  ((findProxy heap i).map Proxy.reqCount).getD 0

/-- Current value of the `ConnErrors` counter of proxy `i`. -/
def connErrorsOf (heap : List Proxy) (i : Nat) : Int :=
  ((findProxy heap i).map Proxy.connErrors).getD 0

/-- Write through a proxy pointer: update the heap record with id `i`. -/
def updateProxy (heap : List Proxy) (i : Nat) (f : Proxy → Proxy) : List Proxy :=
  heap.map (fun p => if p.id == i then f p else p)

/-- The filtering loop of `pool.Alive`: the alive proxies in insertion
order. -/
def aliveFiltered (heap : List Proxy) : List Proxy :=
  heap.filter (fun p => p.IsAlive)

/-- The comparison closure passed to `sort.Slice` in `pool.Alive`:
un-probed entries (latency 0) are pushed to the back, otherwise compare
latencies ascending. -/
def ltLatency (x y : Proxy) : Bool :=
  if x.latency = 0 then false
  else if y.latency = 0 then true
  else decide (x.latency < y.latency)

/-- Sortedness with respect to the `ltLatency` comparison: no later entry is
strictly less than an earlier one. -/
def SortedByLtLatency (out : List Proxy) : Prop :=
  List.Pairwise (fun a b => ltLatency b a = false) out

/-- `pool.Alive`: filter the pool by liveness; when latency sort is enabled
and more than one entry survives, sort with `sort.Slice` and the `ltLatency`
closure.  `sort.Slice` is an external Go standard-library call; its
documented contract is that the slice ends up sorted by the given `less`
function and that the sort is **not guaranteed to be stable**, so it is
modelled relationally: any permutation of the filtered list that is sorted
for `ltLatency` is a possible result. -/
def AliveRel (latencySort : Bool) (heap : List Proxy) (out : List Proxy) : Prop :=
  if latencySort = true ∧ 1 < (aliveFiltered heap).length then
    List.Perm (aliveFiltered heap) out ∧ SortedByLtLatency out
  else out = aliveFiltered heap

/-- A send on the capacity-16 buffered channel `rotateCh`.  A Go channel
send completes immediately when the buffer has room; when the buffer already
holds 16 values the sender blocks (modelled as `none`). -/
def chanSend (ch : List String) (v : String) : Option (List String) :=
  if ch.length < 16 then some (ch ++ [v]) else none

/-- First index at which the current proxy pointer occurs in the alive
snapshot (the search loop of `pickNext`). -/
def findIndex (cur : Nat) : List Nat → Option Nat
  | [] => none
  | x :: xs => if x = cur then some 0 else (findIndex cur xs).map (· + 1)

/-- The new value of `poolIndex` computed by `pickNext`: 0 when `current` is
nil or no longer occurs in the alive snapshot, otherwise one past the index
at which it occurs, wrapping. -/
def nextIndex (r : Rotator) (aliveIds : List Nat) : Nat :=
  match r.current with
  | none => 0
  | some cur =>
    match findIndex cur aliveIds with
    | some found => (found + 1) % aliveIds.length
    | none => 0

/-- The pin map after `pickNext`'s purge: when switching away from a non-nil
`prev` (`prev != nil && prev != r.current` in the source), every pin whose
target equals `prev` is deleted; otherwise the map is untouched. -/
def purgedPins (prev : Option Nat) (newCur : Nat) (pins : List (String × Nat)) :
    List (String × Nat) :=
  match prev with
  | some p => if p ≠ newCur then pins.filter (fun kv => kv.2 ≠ p) else pins
  | none => pins

/-- `(*Rotator).pickNext`: select the next proxy round-robin from the alive
snapshot `aliveIds` (the ids of `pool.Alive()`'s result, in order) and make
it current: bump the generation, stamp `rotatedAt` (only when switching away
from a non-nil previous proxy), reset the new proxy's error counters, and
purge pins that pointed to the previous proxy.  Fails, touching nothing,
when the snapshot is empty. -/
def pickNext (r : Rotator) (aliveIds : List Nat) (now : Nat) : Except String Rotator :=
  if aliveIds = [] then .error "no alive proxies"
  else
    let idx := nextIndex r aliveIds
    let newCur := aliveIds.getD idx 0
    .ok
      { r with
        poolIndex := idx
        current := some newCur
        generation := r.generation + 1
        rotatedAt := if r.current.isSome then now else r.rotatedAt
        heap := updateProxy r.heap newCur Proxy.ResetErrorCounters
        pins := purgedPins r.current newCur r.pins }

/-- One iteration of `rotationLoop` handling a dequeued trigger: run
`pickNext`; on `rotation-error` only log, leaving the state unchanged. -/
def rotationStep (r : Rotator) (aliveIds : List Nat) (now : Nat) : Rotator :=
  match pickNext r aliveIds now with
  | .ok r' => r'
  | .error _ => r

/-- `rotator.New`: default the dedup window to 2 s, start from the empty
state and synchronously pick the first proxy; fail when nothing is alive. -/
def New (heap : List Proxy) (cfg : Config) (aliveIds : List Nat) (now : Nat) :
    Except String Rotator :=
  let cfg' := if cfg.httpErrorDedupWindow = 0
    then { cfg with httpErrorDedupWindow := 2000 } else cfg
  let r0 : Rotator :=
    { cfg := cfg', heap := heap, current := none, poolIndex := 0, generation := 0,
      rotatedAt := 0, pins := [], recentHTTPErrors := [], rotateCh := [] }
  pickNext r0 aliveIds now

/-- `(*Rotator).ProxyFor`: the proxy to use for a destination; returns the
still-alive pin for the destination's domain when one exists, otherwise
returns the current proxy and pins the domain to it. -/
def ProxyFor (r : Rotator) (destination : String) : Option Nat × Rotator :=
  let domain := extractDomain destination
  let pinned : Option Nat :=
    match mapGet r.pins domain with
    | some px => if isAliveId r.heap px then some px else none
    | none => none
  match pinned with
  | some px => (some px, r)
  | none =>
    match r.current with
    | some cur => (some cur, { r with pins := mapSet r.pins domain cur })
    | none => (none, r)

/-- `(*Rotator).ForceRotate`: send `"manual"` on the trigger queue. -/
def ForceRotate (r : Rotator) : Option Rotator :=
  (chanSend r.rotateCh "manual").map (fun ch => { r with rotateCh := ch })

/-- `(*Rotator).RecordRequest`: bump `ReqCount` on the current proxy and
enqueue a trigger when the (non-zero) threshold is reached. -/
def RecordRequest (r : Rotator) : Option Rotator :=
  match r.current with
  | none => some r
  | some cur =>
    let n := reqCountOf r.heap cur + 1
    let heap' := updateProxy r.heap cur (fun p => { p with reqCount := p.reqCount + 1 })
    let r' := { r with heap := heap' }
    if 0 < r.cfg.rotateRequests ∧ r.cfg.rotateRequests ≤ n then
      (chanSend r'.rotateCh s!"request-count={n}").map
        (fun ch => { r' with rotateCh := ch })
    else some r'

/-- `(*Rotator).RecordConnError`: bump `ConnErrors` on the current proxy and
enqueue a trigger when the (non-zero) threshold is reached. -/
def RecordConnError (r : Rotator) : Option Rotator :=
  match r.current with
  | none => some r
  | some cur =>
    let n := connErrorsOf r.heap cur + 1
    let heap' := updateProxy r.heap cur (fun p => { p with connErrors := p.connErrors + 1 })
    let r' := { r with heap := heap' }
    if 0 < r.cfg.rotateConnErrors ∧ r.cfg.rotateConnErrors ≤ n then
      (chanSend r'.rotateCh s!"conn-errors={n}").map
        (fun ch => { r' with rotateCh := ch })
    else some r'

/-- The part of `RecordHTTPError` after the dedup check has passed and
`recentHTTPErrors[domain]` has been stamped: grace-period check, then count
against the current proxy and possibly enqueue a trigger. -/
def recordHTTPErrorCount (r : Rotator) (domain : String) (now : Nat) : Option Rotator :=
  if r.rotatedAt ≠ 0 ∧ now - r.rotatedAt < r.cfg.httpErrorDedupWindow then some r
  else
    match r.current with
    | none => some r
    | some cur =>
      let n := httpErrorsOf r.heap cur + 1
      let heap' := updateProxy r.heap cur (fun p => { p with httpErrors := p.httpErrors + 1 })
      let r' := { r with heap := heap' }
      if r.cfg.rotateHTTPErrors ≤ n then
        (chanSend r'.rotateCh s!"http-errors={n} destination={domain}").map
          (fun ch => { r' with rotateCh := ch })
      else some r'

/-- `(*Rotator).RecordHTTPError`: ignore when the threshold is disabled;
drop reports for a domain already counted within the dedup window, stamping
the domain otherwise; then apply the post-rotation grace period and count. -/
def RecordHTTPError (r : Rotator) (destination : String) (now : Nat) : Option Rotator :=
  if r.cfg.rotateHTTPErrors ≤ 0 then some r
  else
    let domain := extractDomain destination
    let window := r.cfg.httpErrorDedupWindow
    let dropDedup : Bool :=
      match mapGet r.recentHTTPErrors domain with
      | some last => decide (now - last < window)
      | none => false
    if dropDedup then some r
    else
      recordHTTPErrorCount
        { r with recentHTTPErrors := mapSet r.recentHTTPErrors domain now }
        domain now

/-- Fold a list of `RecordHTTPError` calls (same destination, increasing
call times) over the rotator state. -/
def runReports (r : Rotator) (destination : String) (times : List Nat) : Option Rotator :=
  times.foldlM (fun s t => RecordHTTPError s destination t) r

/-- The states reachable through the rotator's public operations, starting
from a successful `New`.  `rotate` is the rotation worker handling one
dequeued trigger; the `Option`-valued operations contribute a step whenever
the call completes (returns rather than staying blocked on the queue). -/
inductive Reachable : Rotator → Prop
  | init (heap : List Proxy) (cfg : Config) (aliveIds : List Nat) (now : Nat) (r : Rotator) :
      New heap cfg aliveIds now = .ok r → Reachable r
  | rotate (r : Rotator) (aliveIds : List Nat) (now : Nat) :
      Reachable r → Reachable (rotationStep r aliveIds now)
  | proxyFor (r : Rotator) (d : String) :
      Reachable r → Reachable (ProxyFor r d).2
  | force (r r' : Rotator) : Reachable r → ForceRotate r = some r' → Reachable r'
  | request (r r' : Rotator) : Reachable r → RecordRequest r = some r' → Reachable r'
  | connError (r r' : Rotator) : Reachable r → RecordConnError r = some r' → Reachable r'
  | httpError (r r' : Rotator) (d : String) (now : Nat) :
      Reachable r → RecordHTTPError r d now = some r' → Reachable r'

instance (out : List Proxy) : Decidable (SortedByLtLatency out) := by
  unfold SortedByLtLatency; infer_instance

instance (latencySort : Bool) (heap out : List Proxy) :
    Decidable (AliveRel latencySort heap out) := by
  unfold AliveRel SortedByLtLatency; infer_instance

/-! ## Concrete scenario states

Small literal pools and rotator states used to instantiate the theorems
below, mirroring the spec's end-to-end scenarios (two-proxy pool `S1`,
three-proxy pool `S5`, and a thirteen-entry pool exercising the latency
sort on a long snapshot). -/

/-- A proxy record as `LoadFile` creates it: alive, zero counters. -/
def mkProxy (i : Nat) (lat : Nat) : Proxy :=
  { id := i, alive := true, latency := lat, reqCount := 0, connErrors := 0, httpErrors := 0 }

/-- The two-proxy pool of scenario S1. -/
def heap2 : List Proxy := [mkProxy 1 0, mkProxy 2 0]

/-- The three-proxy pool `[A, B, C]` (ids 1, 2, 3) of scenario S5. -/
def heap3 : List Proxy := [mkProxy 1 0, mkProxy 2 0, mkProxy 3 0]

/-- Thresholds of scenario S3: rotate after 2 HTTP errors, dedup window
500 ms. -/
def cfgS3 : Config := { rotateHTTPErrors := 2, httpErrorDedupWindow := 500 }

/-- The rotator state right after `New(heap2, cfgS3)`: proxy 1 current,
generation 1, `rotatedAt` still zero. -/
def rS3 : Rotator :=
  { cfg := cfgS3, heap := heap2, current := some 1, poolIndex := 0, generation := 1,
    rotatedAt := 0, pins := [], recentHTTPErrors := [], rotateCh := [] }

/-- The ten burst call times of scenario S3 (all within 100 ms). -/
def timesS3 : List Nat :=
  [1000, 1010, 1020, 1030, 1040, 1050, 1060, 1070, 1080, 1090]

/-- The rotator state right after `New(heap3, Config{})`: proxy A (id 1)
current, default dedup window 2000 ms. -/
def rS5 : Rotator :=
  { cfg := { httpErrorDedupWindow := 2000 }, heap := heap3, current := some 1, poolIndex := 0,
    generation := 1, rotatedAt := 0, pins := [], recentHTTPErrors := [], rotateCh := [] }

/-- A one-proxy rotator state with a pin for `example.com` targeting the
current proxy (domain pinning has happened, then every other proxy died). -/
def rPinned : Rotator :=
  { cfg := { httpErrorDedupWindow := 2000 }, heap := [mkProxy 1 0], current := some 1,
    poolIndex := 0, generation := 1, rotatedAt := 0, pins := [("example.com", 1)],
    recentHTTPErrors := [], rotateCh := [] }

/-- `rPinned` with the trigger queue already holding 16 pending events. -/
def rFullQueue : Rotator :=
  { rPinned with rotateCh := List.replicate 16 "manual" }

/-- A thirteen-entry pool: the first entry has latency 2 ms, the other
twelve all have latency 1 ms. -/
def heap13 : List Proxy := mkProxy 1 2 :: (List.range 12).map (fun k => mkProxy (k + 2) 1)

/-- A possible result of `sort.Slice` on `aliveFiltered heap13`: sorted for
`ltLatency`, but the twelve equal-latency entries do not keep insertion
order (this is, in fact, the exact output of Go's (1.19+) unstable
pattern-defeating quicksort on this input: the first partition swaps the
pivot, element 7, to the front). -/
def out13 : List Proxy :=
  [mkProxy 7 1, mkProxy 2 1, mkProxy 3 1, mkProxy 4 1, mkProxy 5 1, mkProxy 6 1,
   mkProxy 8 1, mkProxy 9 1, mkProxy 10 1, mkProxy 11 1, mkProxy 12 1, mkProxy 13 1,
   mkProxy 1 2]

/-- A rotator state in which a (non-initial) rotation has just happened:
`rotatedAt = 1000` with a 500 ms dedup window. -/
def rGrace : Rotator := { rS3 with rotatedAt := 1000 }

/-! ## Helper lemmas -/

theorem mapGet_mapSet_self (m : List (String × Nat)) (k : String) (v : Nat) :
    mapGet (mapSet m k v) k = some v := by
  induction m with
  | nil => simp [mapSet, mapGet]
  | cons kv t ih =>
    obtain ⟨k', v'⟩ := kv
    by_cases h : k' = k
    · simp [mapSet, h, mapGet]
    · simp [mapSet, h, mapGet, ih]

theorem mapGet_filter_ne (l : List (String × Nat)) (p : Nat) (d : String) (v : Nat)
    (h : mapGet (l.filter (fun kv => kv.2 ≠ p)) d = some v) : v ≠ p := by
  induction l with
  | nil => simp [mapGet] at h
  | cons kv t ih =>
    obtain ⟨k', v'⟩ := kv
    by_cases hp : v' = p
    · simpa [hp] using ih (by simpa [hp] using h)
    · rcases hd : decide (k' = d) with _ | _
      · refine ih ?_
        simpa [List.filter, hp, mapGet, of_decide_eq_false hd] using h
      · have : v' = v := by
          simpa [List.filter, hp, mapGet, of_decide_eq_true hd] using h
        omega

theorem findProxy_updateProxy (heap : List Proxy) (i : Nat) (f : Proxy → Proxy)
    (hf : ∀ p, (f p).id = p.id) :
    findProxy (updateProxy heap i f) i = (findProxy heap i).map f := by
  induction heap with
  | nil => simp [findProxy, updateProxy]
  | cons p t ih =>
    by_cases h : p.id = i
    · simp [findProxy, updateProxy, List.find?, h, hf]
    · have hb : (p.id == i) = false := by simpa using h
      simp only [updateProxy, List.map] at ih ⊢
      simp [findProxy, List.find?, hb, h, hf] at ih ⊢
      simpa [findProxy] using ih

theorem httpErrorsOf_bump (heap : List Proxy) (cur : Nat)
    (h : (findProxy heap cur).isSome = true) :
    httpErrorsOf (updateProxy heap cur (fun p => { p with httpErrors := p.httpErrors + 1 })) cur
      = httpErrorsOf heap cur + 1 := by
  obtain ⟨p, hp⟩ := Option.isSome_iff_exists.mp h
  have := findProxy_updateProxy heap cur
    (fun p => { p with httpErrors := p.httpErrors + 1 }) (fun _ => rfl)
  simp [httpErrorsOf, this, hp]

/-! ## Claim C7 -/

/-- C7: invoked with an empty alive snapshot, `pickNext` fails with
`no alive proxies` and the rotation worker leaves the whole rotator state
exactly as it was: `current`, `generation`, `rotatedAt` and the pin map are
all unchanged. -/
theorem pickNext_empty_noop (r : Rotator) (now : Nat) :
    pickNext r [] now = .error "no alive proxies" ∧
    rotationStep r [] now = r ∧
    (rotationStep r [] now).current = r.current ∧
    (rotationStep r [] now).generation = r.generation ∧
    (rotationStep r [] now).rotatedAt = r.rotatedAt ∧
    (rotationStep r [] now).pins = r.pins := by
  refine ⟨rfl, rfl, rfl, rfl, rfl, rfl⟩

/-! ## Claim C3 -/

/-- C3 counterexample: on the S3 scenario (two proxies, threshold 2, window
500 ms) the burst of ten reports indeed causes no rotation, but the claim
that the further report 600 ms later brings `http_errors` only to 1 with no
trigger is false: the first burst report already counted once, so the later
report counts to 2, reaches the threshold, and enqueues a rotation
trigger. -/
theorem http_error_burst_cex :
    (runReports rS3 "example.com" timesS3).map (fun s => s.rotateCh) = some [] ∧
    ¬ (((runReports rS3 "example.com" timesS3).bind
          (fun s => RecordHTTPError s "example.com" 1690)).map
        (fun s => (httpErrorsOf s.heap 1, s.rotateCh)) = some (1, [])) := by
  exact ⟨by decide, by decide⟩

/-- C3 (amended): ten `RecordHTTPError("example.com")` calls within 100 ms
count exactly once (`http_errors = 1`, below the threshold 2, no rotation
trigger); one further call 600 ms later passes dedup, increments
`http_errors` to 2, reaches the threshold and enqueues a rotation
trigger. -/
theorem http_error_burst_amended :
    New heap2 cfgS3 [1, 2] 100 = .ok rS3 ∧
    (runReports rS3 "example.com" timesS3).map
      (fun s => (httpErrorsOf s.heap 1, s.rotateCh)) = some (1, []) ∧
    ((runReports rS3 "example.com" timesS3).bind
        (fun s => RecordHTTPError s "example.com" 1690)).map
      (fun s => (httpErrorsOf s.heap 1, s.rotateCh)) =
      some (2, ["http-errors=2 destination=example.com"]) := by
  exact ⟨rfl, by decide, by decide⟩

/-! ## Claim C4 -/

/-- C4 counterexample: with 16 events already queued, `ForceRotate` does not
return with the event dropped and the queue unchanged — the channel send
blocks the sender (no completed call exists). -/
theorem full_queue_cex :
    ForceRotate rFullQueue = none ∧ ¬ (ForceRotate rFullQueue = some rFullQueue) := by
  exact ⟨by decide, by decide⟩

/-- C4 (amended): the trigger queue has capacity 16 and producers use plain
(blocking) channel sends: when the queue already holds 16 pending events a
trigger-producing send blocks its sender instead of dropping the event, and
when the queue holds fewer than 16 events the event is appended
immediately. -/
theorem full_queue_blocks (r : Rotator) :
    (16 ≤ r.rotateCh.length →
        ForceRotate r = none ∧ ∀ v, chanSend r.rotateCh v = none) ∧
    (r.rotateCh.length < 16 →
        ForceRotate r = some { r with rotateCh := r.rotateCh ++ ["manual"] }) := by
  constructor
  · intro h
    have hs : ∀ v, chanSend r.rotateCh v = none := by
      intro v; simp [chanSend]; omega
    exact ⟨by simp [ForceRotate, hs], hs⟩
  · intro h
    simp [ForceRotate, chanSend, h]

/-- Witness for C4 (amended), at a full and at an empty queue. -/
theorem full_queue_blocks_witness :
    ForceRotate rFullQueue = none ∧
    ForceRotate rPinned = some { rPinned with rotateCh := rPinned.rotateCh ++ ["manual"] } := by
  exact ⟨((full_queue_blocks rFullQueue).1 (by decide)).1,
    (full_queue_blocks rPinned).2 (by decide)⟩

/-! ## Claim C1 -/

/-- C1: a successful `pickNext` over a (necessarily non-empty) alive
snapshot sets `current` to `alive[(i+1) mod len(alive)]` when the previous
current occurs in the snapshot at (first) index `i`, and to `alive[0]` when
the previous current is nil or does not occur; consequently on pool
`[A, B, C]` (latency sort off, so the snapshot is the insertion-ordered
filter) with current `A`, repeated manual rotations cycle current through
`B, C, A, B, ...`. -/
theorem pickNext_round_robin :
    (∀ (r : Rotator) (aliveIds : List Nat) (now : Nat) (r' : Rotator),
        pickNext r aliveIds now = .ok r' →
        (r.current = none → r'.current = some (aliveIds.getD 0 0)) ∧
        (∀ cur i, r.current = some cur → findIndex cur aliveIds = some i →
            r'.current = some (aliveIds.getD ((i + 1) % aliveIds.length) 0)) ∧
        (∀ cur, r.current = some cur → findIndex cur aliveIds = none →
            r'.current = some (aliveIds.getD 0 0))) ∧
    ((aliveFiltered heap3).map Proxy.id = [1, 2, 3] ∧
     New heap3 {} [1, 2, 3] 100 = .ok rS5 ∧
     rS5.current = some 1 ∧
     (rotationStep rS5 [1, 2, 3] 10).current = some 2 ∧
     (rotationStep (rotationStep rS5 [1, 2, 3] 10) [1, 2, 3] 20).current = some 3 ∧
     (rotationStep (rotationStep (rotationStep rS5 [1, 2, 3] 10) [1, 2, 3] 20)
         [1, 2, 3] 30).current = some 1 ∧
     (rotationStep (rotationStep (rotationStep (rotationStep rS5 [1, 2, 3] 10)
         [1, 2, 3] 20) [1, 2, 3] 30) [1, 2, 3] 40).current = some 2) := by
  constructor
  · intro r aliveIds now r' h
    have hne : ¬ (aliveIds = []) := by
      intro he
      rw [he] at h
      simp [pickNext] at h
    unfold pickNext at h
    rw [if_neg hne, Except.ok.injEq] at h
    subst h
    refine ⟨?_, ?_, ?_⟩
    · intro hc; simp [nextIndex, hc]
    · intro cur i hc hf; simp [nextIndex, hc, hf]
    · intro cur hc hf; simp [nextIndex, hc, hf]
  · exact ⟨by decide, rfl, rfl, by decide, by decide, by decide, by decide⟩

/-- Witness for C1: the round-robin formula applied at the concrete pool
`[1, 2, 3]` starting from current 1 (found at index 0) yields current 2. -/
theorem pickNext_round_robin_witness :
    (rotationStep rS5 [1, 2, 3] 10).current = some ([1, 2, 3].getD ((0 + 1) % 3) 0) := by
  exact (pickNext_round_robin.1 rS5 [1, 2, 3] 10
    (rotationStep rS5 [1, 2, 3] 10) rfl).2.1 1 0 rfl (by decide)

/-! ## Claim C2 -/

/-- C2: `ProxyFor` computes the domain by stripping everything from the last
`:` and lowercasing; when the domain has a pin whose target is alive it
returns that pin and leaves the whole state (in particular the pin map)
unchanged; otherwise, when `current` is non-nil it pins the domain to
`current` and returns it, and when `current` is nil it returns nil and adds
no pin. -/
theorem ProxyFor_pin_selection (r : Rotator) (d : String) :
    (∀ px, mapGet r.pins (extractDomain d) = some px → isAliveId r.heap px = true →
        ProxyFor r d = (some px, r)) ∧
    ((∀ px, mapGet r.pins (extractDomain d) = some px → isAliveId r.heap px = false) →
        (∀ cur, r.current = some cur →
            ProxyFor r d = (some cur, { r with pins := mapSet r.pins (extractDomain d) cur })) ∧
        (r.current = none → ProxyFor r d = (none, r))) := by
  constructor
  · intro px hpx halive
    simp [ProxyFor, hpx, halive]
  · intro hnone
    have hpinned : (match mapGet r.pins (extractDomain d) with
        | some px => if isAliveId r.heap px then some px else none
        | none => none) = (none : Option Nat) := by
      rcases hm : mapGet r.pins (extractDomain d) with _ | px
      · rfl
      · simp [hnone px hm]
    constructor
    · intro cur hc
      simp [ProxyFor, hpinned, hc]
    · intro hc
      simp [ProxyFor, hpinned, hc]

/-- Witness for C2: on `rPinned` the alive pin for `example.com` wins and
the state is untouched; on `rS3` (no pins) `other.com:443` gets pinned to
the current proxy 1. -/
theorem ProxyFor_pin_selection_witness :
    ProxyFor rPinned "example.com:443" = (some 1, rPinned) ∧
    ProxyFor rS3 "other.com:443" =
      (some 1, { rS3 with pins := mapSet rS3.pins (extractDomain "other.com:443") 1 }) := by
  refine ⟨(ProxyFor_pin_selection rPinned "example.com:443").1 1 (by decide) (by decide), ?_⟩
  exact ((ProxyFor_pin_selection rS3 "other.com:443").2 (by intro px hpx; cases hpx)).1 1 rfl

/-! ## Claim C5 -/

/-- C5 counterexample: a rotation with non-nil `prev` after which a pin
targeting `prev` is still present.  On the one-proxy pool, `pickNext`
re-selects the same proxy (`prev == r.current`), the purge guard
`prev != nil && prev != r.current` is false, and the `example.com` pin to
proxy 1 survives the rotation. -/
theorem pin_purge_cex :
    ¬ (∀ r', pickNext rPinned [1] 500 = .ok r' →
        ∀ d v, mapGet r'.pins d = some v → v ≠ 1) := by
  intro h
  exact h (rotationStep rPinned [1] 500) rfl "example.com" 1 (by decide) rfl

/-- C5 (amended): on a successful `pickNext` whose previous current `prev`
is non-nil, every pin whose target equals `prev` is removed whenever the
newly selected proxy differs from `prev`; when `pickNext` re-selects `prev`
itself the pin map is left untouched. -/
theorem pin_purge_amended (r : Rotator) (aliveIds : List Nat) (now : Nat)
    (r' : Rotator) (p : Nat) (hcur : r.current = some p)
    (hok : pickNext r aliveIds now = .ok r') :
    (r'.current ≠ some p → ∀ d v, mapGet r'.pins d = some v → v ≠ p) ∧
    (r'.current = some p → r'.pins = r.pins) := by
  have hne : ¬ (aliveIds = []) := by
    intro he
    rw [he] at hok
    simp [pickNext] at hok
  unfold pickNext at hok
  rw [if_neg hne, Except.ok.injEq] at hok
  subst hok
  constructor
  · intro hcne d v hm
    have hpne : p ≠ aliveIds.getD (nextIndex r aliveIds) 0 := fun he => hcne (by rw [he])
    have hpins : purgedPins r.current (aliveIds.getD (nextIndex r aliveIds) 0) r.pins
        = r.pins.filter (fun kv => kv.2 ≠ p) := by
      rw [hcur]
      simp only [purgedPins]
      rw [if_pos hpne]
    have hm' : mapGet (r.pins.filter (fun kv => kv.2 ≠ p)) d = some v := by
      rw [← hpins]; exact hm
    exact mapGet_filter_ne r.pins p d v hm'
  · intro hceq
    have hpeq : p = aliveIds.getD (nextIndex r aliveIds) 0 := by
      have h2 : some (aliveIds.getD (nextIndex r aliveIds) 0) = some p := hceq
      exact (Option.some_inj.mp h2).symm
    show purgedPins r.current (aliveIds.getD (nextIndex r aliveIds) 0) r.pins = r.pins
    rw [hcur]
    simp only [purgedPins]
    rw [if_neg (fun hne => hne hpeq)]

/-- Witness for C5 (amended): the self-rotation on the one-proxy pool keeps
the pin map untouched. -/
theorem pin_purge_amended_witness :
    (rotationStep rPinned [1] 500).pins = rPinned.pins := by
  exact (pin_purge_amended rPinned [1] 500 (rotationStep rPinned [1] 500) 1 rfl rfl).2
    (by decide)

/-! ## Phase lemmas for `RecordHTTPError` -/

/-- With the threshold disabled, `RecordHTTPError` is a no-op. -/
theorem RecordHTTPError_disabled (r : Rotator) (d : String) (now : Nat)
    (hth : r.cfg.rotateHTTPErrors ≤ 0) : RecordHTTPError r d now = some r := by
  unfold RecordHTTPError
  rw [if_pos hth]

/-- A report whose domain was stamped within the dedup window is dropped
with the state completely unchanged. -/
theorem RecordHTTPError_dedup_drop (r : Rotator) (d : String) (now last : Nat)
    (hth : 0 < r.cfg.rotateHTTPErrors)
    (hlast : mapGet r.recentHTTPErrors (extractDomain d) = some last)
    (hwin : now - last < r.cfg.httpErrorDedupWindow) :
    RecordHTTPError r d now = some r := by
  unfold RecordHTTPError
  rw [if_neg (by omega)]
  simp only [hlast, decide_eq_true hwin, if_pos]

/-- A report that passes the dedup check stamps
`recentHTTPErrors[domain] = now` and proceeds to the grace-period/count
phase on the stamped state. -/
theorem RecordHTTPError_eq_count (r : Rotator) (d : String) (now : Nat)
    (hth : 0 < r.cfg.rotateHTTPErrors)
    (hded : ∀ last, mapGet r.recentHTTPErrors (extractDomain d) = some last →
        r.cfg.httpErrorDedupWindow ≤ now - last) :
    RecordHTTPError r d now =
      recordHTTPErrorCount
        { r with recentHTTPErrors := mapSet r.recentHTTPErrors (extractDomain d) now }
        (extractDomain d) now := by
  unfold RecordHTTPError
  rw [if_neg (by omega)]
  rcases hm : mapGet r.recentHTTPErrors (extractDomain d) with _ | last
  · simp [hm]
  · simp [hm, decide_eq_false (Nat.not_lt.mpr (hded last hm))]

/-- Within the post-rotation grace period the count phase drops the report,
leaving the state unchanged. -/
theorem recordHTTPErrorCount_grace (r : Rotator) (domain : String) (now : Nat)
    (hrot : r.rotatedAt ≠ 0) (hwin : now - r.rotatedAt < r.cfg.httpErrorDedupWindow) :
    recordHTTPErrorCount r domain now = some r := by
  unfold recordHTTPErrorCount
  rw [if_pos ⟨hrot, hwin⟩]

/-! ## Claim C6 -/

/-- C6: a `RecordHTTPError` arriving when `rotatedAt` is non-zero and less
than one dedup window has elapsed since it leaves the proxy heap (hence the
current proxy's `http_errors` counter) and the trigger queue unchanged; and
when no rotation has yet occurred (`rotatedAt = 0`) the suppression does not
apply: a report that passes dedup does increment the current proxy's
counter. -/
theorem grace_period_suppresses :
    (∀ (r : Rotator) (d : String) (now : Nat),
        r.rotatedAt ≠ 0 → now - r.rotatedAt < r.cfg.httpErrorDedupWindow →
        ∃ r', RecordHTTPError r d now = some r' ∧
          r'.heap = r.heap ∧ r'.rotateCh = r.rotateCh) ∧
    (∀ (r : Rotator) (d : String) (now : Nat) (cur : Nat),
        r.rotatedAt = 0 → r.current = some cur → 0 < r.cfg.rotateHTTPErrors →
        (findProxy r.heap cur).isSome = true →
        (∀ last, mapGet r.recentHTTPErrors (extractDomain d) = some last →
            r.cfg.httpErrorDedupWindow ≤ now - last) →
        r.rotateCh.length < 16 →
        ∃ r', RecordHTTPError r d now = some r' ∧
          httpErrorsOf r'.heap cur = httpErrorsOf r.heap cur + 1) := by
  constructor
  · intro r d now hrot hwin
    by_cases hth : r.cfg.rotateHTTPErrors ≤ 0
    · exact ⟨r, RecordHTTPError_disabled r d now hth, rfl, rfl⟩
    · by_cases hdrop : ∃ last, mapGet r.recentHTTPErrors (extractDomain d) = some last ∧
          now - last < r.cfg.httpErrorDedupWindow
      · obtain ⟨last, hlast, hw⟩ := hdrop
        exact ⟨r, RecordHTTPError_dedup_drop r d now last (by omega) hlast hw, rfl, rfl⟩
      · have hded : ∀ last, mapGet r.recentHTTPErrors (extractDomain d) = some last →
            r.cfg.httpErrorDedupWindow ≤ now - last := by
          intro last hlast
          by_contra hlt
          exact hdrop ⟨last, hlast, by omega⟩
        refine ⟨{ r with recentHTTPErrors := mapSet r.recentHTTPErrors (extractDomain d) now },
          ?_, rfl, rfl⟩
        rw [RecordHTTPError_eq_count r d now (by omega) hded]
        exact recordHTTPErrorCount_grace
          { r with recentHTTPErrors := mapSet r.recentHTTPErrors (extractDomain d) now }
          (extractDomain d) now hrot hwin
  · intro r d now cur hrot hc hth hfind hded hq
    rw [RecordHTTPError_eq_count r d now hth hded]
    unfold recordHTTPErrorCount
    rw [if_neg (by simp [hrot])]
    simp only [hc]
    by_cases hth2 : r.cfg.rotateHTTPErrors ≤ httpErrorsOf r.heap cur + 1
    · rw [if_pos (by exact hth2)]
      simp only [chanSend, if_pos (by simpa using hq), Option.map_some]
      exact ⟨_, rfl, httpErrorsOf_bump r.heap cur hfind⟩
    · rw [if_neg (by exact hth2)]
      exact ⟨_, rfl, httpErrorsOf_bump r.heap cur hfind⟩

/-- Witness for C6: at `rGrace` (rotated at 1000, window 500) a report at
1200 changes neither heap nor queue; at `rS3` (never rotated) a report at
1000 increments proxy 1's counter. -/
theorem grace_period_suppresses_witness :
    (∃ r', RecordHTTPError rGrace "x.com" 1200 = some r' ∧
        r'.heap = rGrace.heap ∧ r'.rotateCh = rGrace.rotateCh) ∧
    (∃ r', RecordHTTPError rS3 "x.com" 1000 = some r' ∧
        httpErrorsOf r'.heap 1 = httpErrorsOf rS3.heap 1 + 1) := by
  constructor
  · exact grace_period_suppresses.1 rGrace "x.com" 1200 (by decide) (by decide)
  · exact grace_period_suppresses.2 rS3 "x.com" 1000 1 rfl rfl (by decide) (by decide)
      (by intro last h; cases h) (by decide)

/-! ## Claim C10 -/

/-- C10: a report that passes dedup but is dropped by the post-rotation
grace period still stamps `recentHTTPErrors[domain] = now`; therefore a
second report of the same domain within one dedup window of the first is
dropped by dedup — even when it arrives after the grace period has
expired. -/
theorem graced_report_still_dedups (r : Rotator) (d : String) (now now2 : Nat)
    (hth : 0 < r.cfg.rotateHTTPErrors)
    (hded : ∀ last, mapGet r.recentHTTPErrors (extractDomain d) = some last →
        r.cfg.httpErrorDedupWindow ≤ now - last)
    (hrot : r.rotatedAt ≠ 0)
    (hgrace : now - r.rotatedAt < r.cfg.httpErrorDedupWindow)
    (hwin2 : now2 - now < r.cfg.httpErrorDedupWindow)
    (_hexpired : r.cfg.httpErrorDedupWindow ≤ now2 - r.rotatedAt) :
    ∃ r₁, RecordHTTPError r d now = some r₁ ∧
      mapGet r₁.recentHTTPErrors (extractDomain d) = some now ∧
      RecordHTTPError r₁ d now2 = some r₁ := by
  have h1 : RecordHTTPError r d now =
      some { r with recentHTTPErrors := mapSet r.recentHTTPErrors (extractDomain d) now } := by
    rw [RecordHTTPError_eq_count r d now hth hded]
    exact recordHTTPErrorCount_grace _ _ _ hrot hgrace
  refine ⟨_, h1, mapGet_mapSet_self _ _ _, ?_⟩
  exact RecordHTTPError_dedup_drop _ d now2 now hth (mapGet_mapSet_self _ _ _) hwin2

/-- Witness for C10: at `rGrace`, the graced report at 1200 stamps the
domain, and the second report at 1600 (grace long expired, but within the
window of the stamp) is dropped by dedup. -/
theorem graced_report_still_dedups_witness :
    ∃ r₁, RecordHTTPError rGrace "x.com" 1200 = some r₁ ∧
      mapGet r₁.recentHTTPErrors (extractDomain "x.com") = some 1200 ∧
      RecordHTTPError r₁ "x.com" 1600 = some r₁ := by
  exact graced_report_still_dedups rGrace "x.com" 1200 1600 (by decide)
    (by intro last h; cases h) (by decide) (by decide) (by decide) (by decide)

/-! ## Current-proxy preservation lemmas (for C9) -/


theorem pickNext_ok_current (r : Rotator) (aliveIds : List Nat) (now : Nat) (r' : Rotator)
    (h : pickNext r aliveIds now = .ok r') :
    r'.current = some (aliveIds.getD (nextIndex r aliveIds) 0) := by
  have hne : ¬ (aliveIds = []) := by
    intro he
    rw [he] at h
    simp [pickNext] at h
  unfold pickNext at h
  rw [if_neg hne, Except.ok.injEq] at h
  subst h
  rfl

theorem rotationStep_current (r : Rotator) (aliveIds : List Nat) (now : Nat) :
    (rotationStep r aliveIds now).current = r.current ∨
    (rotationStep r aliveIds now).current = some (aliveIds.getD (nextIndex r aliveIds) 0) := by
  unfold rotationStep
  rcases hp : pickNext r aliveIds now with e | r'
  · exact Or.inl rfl
  · exact Or.inr (pickNext_ok_current r aliveIds now r' hp)

theorem ProxyFor_snd_current (r : Rotator) (d : String) :
    ((ProxyFor r d).2).current = r.current := by
  unfold ProxyFor
  rcases hm : mapGet r.pins (extractDomain d) with _ | px
  · rcases hc : r.current with _ | cur <;> simp [hm, hc]
  · by_cases ha : isAliveId r.heap px
    · simp [hm, ha]
    · rcases hc : r.current with _ | cur <;> simp [hm, ha, hc]

theorem ForceRotate_current (r r' : Rotator) (h : ForceRotate r = some r') :
    r'.current = r.current := by
  unfold ForceRotate at h
  rw [Option.map_eq_some'] at h
  obtain ⟨ch, hch, hfb⟩ := h
  subst hfb
  rfl

theorem RecordRequest_current (r r' : Rotator) (h : RecordRequest r = some r') :
    r'.current = r.current := by
  unfold RecordRequest at h
  split at h
  next hc =>
    obtain rfl : r = r' := by simpa using h
    rfl
  next cur hc =>
    dsimp only at h
    split at h
    · rw [Option.map_eq_some'] at h
      obtain ⟨ch, hch, hfb⟩ := h
      subst hfb
      rfl
    · simp only [Option.some.injEq] at h
      subst h
      rfl

theorem RecordConnError_current (r r' : Rotator) (h : RecordConnError r = some r') :
    r'.current = r.current := by
  unfold RecordConnError at h
  split at h
  next hc =>
    obtain rfl : r = r' := by simpa using h
    rfl
  next cur hc =>
    dsimp only at h
    split at h
    · rw [Option.map_eq_some'] at h
      obtain ⟨ch, hch, hfb⟩ := h
      subst hfb
      rfl
    · simp only [Option.some.injEq] at h
      subst h
      rfl

theorem recordHTTPErrorCount_current (r : Rotator) (domain : String) (now : Nat)
    (r' : Rotator) (h : recordHTTPErrorCount r domain now = some r') :
    r'.current = r.current := by
  unfold recordHTTPErrorCount at h
  split at h
  · obtain rfl : r = r' := by simpa using h
    rfl
  · split at h
    next hc =>
      obtain rfl : r = r' := by simpa using h
      rfl
    next cur hc =>
      dsimp only at h
      split at h
      · rw [Option.map_eq_some'] at h
        obtain ⟨ch, hch, hfb⟩ := h
        subst hfb
        rfl
      · simp only [Option.some.injEq] at h
        subst h
        rfl

theorem RecordHTTPError_current (r r' : Rotator) (d : String) (now : Nat)
    (h : RecordHTTPError r d now = some r') : r'.current = r.current := by
  unfold RecordHTTPError at h
  split at h
  · obtain rfl : r = r' := by simpa using h
    rfl
  · dsimp only at h
    split at h
    · obtain rfl : r = r' := by simpa using h
      rfl
    · exact recordHTTPErrorCount_current
        { r with recentHTTPErrors := mapSet r.recentHTTPErrors (extractDomain d) now }
        (extractDomain d) now r' h

/-! ## Claim C9 -/

/-- C9: in every state reachable after a successful `New` — through
rotations, `ProxyFor`, and the counters' record operations — `current` is
non-nil: `New` fails unless its initial `pickNext` succeeds, every
successful `pickNext` assigns `current` an element of the snapshot, and no
operation ever writes `nil` back into `current`. -/
theorem reachable_current_nonnull (r : Rotator) (h : Reachable r) : r.current ≠ none := by
  induction h with
  | init heap cfg aliveIds now r hnew =>
    unfold New at hnew
    rw [pickNext_ok_current _ aliveIds now r hnew]
    simp
  | rotate r aliveIds now _ ih =>
    rcases rotationStep_current r aliveIds now with hc | hc <;> rw [hc]
    · exact ih
    · simp
  | proxyFor r d _ ih =>
    rw [ProxyFor_snd_current r d]
    exact ih
  | force r r' _ hstep ih =>
    rw [ForceRotate_current r r' hstep]
    exact ih
  | request r r' _ hstep ih =>
    rw [RecordRequest_current r r' hstep]
    exact ih
  | connError r r' _ hstep ih =>
    rw [RecordConnError_current r r' hstep]
    exact ih
  | httpError r r' d now _ hstep ih =>
    rw [RecordHTTPError_current r r' d now hstep]
    exact ih

/-- Witness for C9: the startup state of scenario S3 is reachable (it is the
result of `New`), so its `current` is non-nil. -/
theorem reachable_current_nonnull_witness : rS3.current ≠ none := by
  exact reachable_current_nonnull rS3 (Reachable.init heap2 cfgS3 [1, 2] 100 rS3 rfl)

/-! ## Claim C8 -/

/-- Any list of length at most one is vacuously pairwise-related. -/
theorem pairwise_of_length_le_one {α : Type} {R : α → α → Prop} (l : List α)
    (h : l.length ≤ 1) : l.Pairwise R := by
  match l with
  | [] => exact List.Pairwise.nil
  | [x] => simp
  | x :: y :: t => simp at h

/-- C8 counterexample: ties do **not** keep insertion order.  On the
thirteen-entry pool `heap13` (latency sort on), `out13` is a result
permitted by `sort.Slice`'s contract (and is the very output of Go's
unstable pdqsort here), yet the twelve latency-1 entries appear in the order
7, 2, 3, 4, 5, 6, 8, ..., 13 instead of their insertion order 2, 3, ...,
13. -/
theorem alive_sort_stability_cex :
    ¬ (∀ out, AliveRel true heap13 out →
        ∀ lat, out.filter (fun p => p.latency == lat) =
          (aliveFiltered heap13).filter (fun p => p.latency == lat)) := by
  intro h
  exact absurd (h out13 (by decide) 1) (by decide)

/-- C8 (amended): `Alive` returns exactly the alive upstreams — in insertion
order when latency sort is off, and, when latency sort is on, as a
permutation ordered by latency ascending with every zero-latency entry after
all non-zero-latency entries; entries of equal latency are **not**
guaranteed to keep their insertion order (`sort.Slice` is unstable). -/
theorem alive_snapshot_amended (latencySort : Bool) (heap out : List Proxy)
    (h : AliveRel latencySort heap out) :
    List.Perm out (aliveFiltered heap) ∧
    (latencySort = true →
        List.Pairwise (fun a b => b.latency = 0 ∨ (a.latency ≠ 0 ∧ a.latency ≤ b.latency)) out) ∧
    (latencySort = false → out = aliveFiltered heap) := by
  unfold AliveRel at h
  by_cases hc : latencySort = true ∧ 1 < (aliveFiltered heap).length
  · rw [if_pos hc] at h
    obtain ⟨hperm, hsort⟩ := h
    refine ⟨hperm.symm, fun _ => ?_, fun hlf => absurd hc.1 (by simp [hlf])⟩
    refine hsort.imp ?_
    intro a b hab
    by_cases hb : b.latency = 0
    · exact Or.inl hb
    · right
      unfold ltLatency at hab
      rw [if_neg hb] at hab
      by_cases ha : a.latency = 0
      · rw [if_pos ha] at hab
        cases hab
      · rw [if_neg ha] at hab
        have := of_decide_eq_false hab
        exact ⟨ha, by omega⟩
  · rw [if_neg hc] at h
    subst h
    refine ⟨List.Perm.refl _, fun hlt => ?_, fun _ => rfl⟩
    have hlen : (aliveFiltered heap).length ≤ 1 := by
      by_contra hgt
      exact hc ⟨hlt, by omega⟩
    exact pairwise_of_length_le_one _ hlen

/-- Witness for C8 (amended), at the concrete pool `heap13` with latency
sort on and the unstable-sort output `out13`. -/
theorem alive_snapshot_amended_witness :
    List.Perm out13 (aliveFiltered heap13) ∧
    List.Pairwise (fun a b => b.latency = 0 ∨ (a.latency ≠ 0 ∧ a.latency ≤ b.latency)) out13 := by
  have h := alive_snapshot_amended true heap13 out13 (by decide)
  exact ⟨h.1, h.2.1 rfl⟩

end ProxyRotator
